import Mathlib

/-!
Shallow embedding of the expense-tracker service and repository layers.

The Go code stores expenses in a PostgreSQL table; here the table is a list
of rows plus the sequence counter for the auto-assigned id.  Monetary
amounts (Go float64 columns holding fixed-precision decimals) are embedded
as rationals, calendar dates as explicit year/month/day records, and the
fallible operations return Except values: an adapter that found no row
reports an empty result (none), mirroring the (nil, nil) returns in Go.
-/

namespace ExpenseTracker

/-- Calendar date with no time component, as produced by parsing a
YYYY-MM-DD string. -/
structure Date where
  year : Nat
  month : Nat
  day : Nat
deriving DecidableEq, Repr

/-- Gregorian leap-year test, as in Go's time package. -/
def isLeapYear (y : Nat) : Bool :=
  (y % 4 == 0 && y % 100 != 0) || y % 400 == 0

/-- Number of days in a month, leap years accounted for. -/
def daysInMonth (y m : Nat) : Nat :=
  if m == 2 then (if isLeapYear y then 29 else 28)
  else if m == 4 || m == 6 || m == 9 || m == 11 then 30
  else 31

/-- Numeric value of a decimal digit character. -/
def digitVal (c : Char) : Nat := c.toNat - 48

/-- Model of Go's time.Parse with layout 2006-01-02: exactly ten
characters, four year digits, two month digits, two day digits, dashes in
between, month in 1..12 and day in range for the month. -/
def parseDate (s : String) : Option Date :=
  match s.toList with
  | [y1, y2, y3, y4, s1, m1, m2, s2, d1, d2] =>
    if y1.isDigit && y2.isDigit && y3.isDigit && y4.isDigit &&
        s1 == '-' && m1.isDigit && m2.isDigit && s2 == '-' &&
        d1.isDigit && d2.isDigit then
      let y := ((digitVal y1 * 10 + digitVal y2) * 10 + digitVal y3) * 10 + digitVal y4
      let m := digitVal m1 * 10 + digitVal m2
      let d := digitVal d1 * 10 + digitVal d2
      if 1 ≤ m && m ≤ 12 && 1 ≤ d && d ≤ daysInMonth y m then
        some { year := y, month := m, day := d }
      else none
    else none
  | _ => none

/-- Strict lexicographic order on dates. -/
def Date.Lt (a b : Date) : Prop :=
  a.year < b.year ∨ (a.year = b.year ∧
    (a.month < b.month ∨ (a.month = b.month ∧ a.day < b.day)))

instance (a b : Date) : Decidable (Date.Lt a b) := by
  unfold Date.Lt; exact inferInstance

/-- Reflexive lexicographic order on dates. -/
def Date.Le (a b : Date) : Prop :=
  Date.Lt a b ∨ a = b

instance (a b : Date) : Decidable (Date.Le a b) := by
  unfold Date.Le; exact inferInstance

/-- The persisted expense row. -/
structure Expense where
  id : Int
  description : String
  amount : Rat
  category : String
  date : Date
  createdAt : Nat
deriving DecidableEq, Repr

/-- Body of POST /api/expenses: all fields required, date as a string. -/
structure CreateExpenseRequest where
  description : String
  amount : Rat
  category : String
  date : String
deriving DecidableEq, Repr

/-- Body of PUT /api/expenses/id: every field optional, absence meaning
the column is left untouched. -/
structure UpdateExpenseRequest where
  description : Option String
  amount : Option Rat
  category : Option String
  date : Option String
deriving DecidableEq, Repr

/-- Listing filter: empty strings mean the bound is absent, limit and
offset are plain machine integers supplied by the client. -/
structure ExpenseFilter where
  category : String
  dateFrom : String
  dateTo : String
  limit : Int
  offset : Int
deriving DecidableEq, Repr

/-- Aggregate statistics; the per-category totals are an association list
keyed by the category label. -/
structure ExpenseStats where
  totalAmount : Rat
  expenseCount : Nat
  averageAmount : Rat
  byCategory : List (String × Rat)
deriving DecidableEq, Repr

/-- Error taxonomy of the system: invalid input (date parsing), not found
(carrying the id so the message can include it), storage failures. -/
inductive Err where
  | invalidInput : String → Err
  | notFound : Int → Err
  | storage : String → Err
deriving DecidableEq, Repr

/-- Human-readable message of an error, as built by fmt.Errorf. -/
def Err.message : Err → String
  | .invalidInput s => s
  | .notFound id => "расход с id=" ++ toString id ++ " не найден"
  | .storage s => s

/-- The state of the expenses table: the rows plus the SERIAL sequence
used for the next auto-assigned id. -/
structure DB where
  rows : List Expense
  nextId : Int
deriving DecidableEq, Repr

/-- INSERT INTO expenses ... RETURNING id: the storage assigns the id and
the adapter stamps created_at with the current time before inserting. -/
def ExpenseRepository.create (db : DB) (now : Nat) (e0 : Expense) : Expense × DB :=
  let e := { e0 with id := db.nextId, createdAt := now }
  (e, { rows := db.rows ++ [e], nextId := db.nextId + 1 })

/-- SELECT ... WHERE id = $1: the first row with the id, none when no row
matches (sql.ErrNoRows is translated to an empty result, not an error). -/
def ExpenseRepository.getByID (db : DB) (id : Int) : Option Expense :=
  db.rows.find? (fun e => e.id == id)

/-- The ordering of ORDER BY date DESC, id DESC: a comes no later than b
when a's key (date, id) is at least b's. -/
def rowOrd (a b : Expense) : Prop :=
  Date.Lt b.date a.date ∨ (b.date = a.date ∧ b.id ≤ a.id)

instance : DecidableRel rowOrd := by
  intro a b; unfold rowOrd; exact inferInstance

instance : IsTotal Expense rowOrd := by
  constructor
  intro a b
  unfold rowOrd Date.Lt
  rcases ha : a.date with ⟨y1, m1, d1⟩
  rcases hb : b.date with ⟨y2, m2, d2⟩
  simp only [Date.mk.injEq]
  omega

instance : IsTrans Expense rowOrd := by
  constructor
  intro a b c hab hbc
  unfold rowOrd Date.Lt at hab hbc ⊢
  rcases ha : a.date with ⟨y1, m1, d1⟩
  rcases hb : b.date with ⟨y2, m2, d2⟩
  rcases hc : c.date with ⟨y3, m3, d3⟩
  rw [ha, hb] at hab
  rw [hb, hc] at hbc
  simp only [Date.mk.injEq] at hab hbc ⊢
  omega

/-- Casting a filter bound: an empty string supplies no bound; a non-empty
string that is not a date makes the query fail in the engine. -/
def parseBound (s : String) : Except Err (Option Date) :=
  if s = "" then .ok none
  else
    match parseDate s with
    | some d => .ok (some d)
    | none => .error (.storage ("ошибка получения списка расходов: invalid date " ++ s))

/-- LIMIT and OFFSET clauses, each added only when the value is positive;
OFFSET skips rows before LIMIT truncates. -/
def applyPagination (limit offset : Int) (l : List Expense) : List Expense :=
  let l1 := if offset > 0 then l.drop offset.toNat else l
  if limit > 0 then l1.take limit.toNat else l1

/-- The WHERE conditions accumulated exactly as the Go code appends them:
category equality when a category is supplied, then the lower and upper
date bounds when supplied. -/
def filterConds (cat : String) (lo hi : Option Date) : List (Expense → Bool) :=
  let c1 : List (Expense → Bool) :=
    if cat ≠ "" then [fun e => e.category == cat] else []
  let c2 : List (Expense → Bool) :=
    match lo with | some d => [fun e => decide (Date.Le d e.date)] | none => []
  let c3 : List (Expense → Bool) :=
    match hi with | some d => [fun e => decide (Date.Le e.date d)] | none => []
  c1 ++ c2 ++ c3

/-- SELECT with the conjunction of the accumulated conditions, ORDER BY
date DESC, id DESC, and LIMIT/OFFSET added only when positive.  A nil
result set is replaced by the empty slice, so the value is always a
list. -/
def ExpenseRepository.getAll (db : DB) (f : ExpenseFilter) : Except Err (List Expense) :=
  match parseBound f.dateFrom with
  | .error e => .error e
  | .ok lo =>
    match parseBound f.dateTo with
    | .error e => .error e
    | .ok hi =>
      let rows := db.rows.filter (fun e => (filterConds f.category lo hi).all (fun c => c e))
      .ok (applyPagination f.limit f.offset (List.insertionSort rowOrd rows))

/-- Overwriting the columns named in the SET list of the UPDATE statement:
only present fields change, id and created_at are never in the list. -/
def applyUpdate (req : UpdateExpenseRequest) (pd : Option Date) (e : Expense) : Expense :=
  { e with
    description := req.description.getD e.description
    amount := req.amount.getD e.amount
    category := req.category.getD e.category
    date := pd.getD e.date }

/-- UPDATE expenses SET ... WHERE id = $n RETURNING ...: every row with
the id is overwritten; zero affected rows surface as an empty result. -/
def updateRows (db : DB) (id : Int) (req : UpdateExpenseRequest) (pd : Option Date) :
    Except Err (Option Expense × DB) :=
  match ExpenseRepository.getByID db id with
  | none => .ok (none, db)
  | some e =>
    .ok (some (applyUpdate req pd e),
      { db with rows := db.rows.map (fun x => if x.id == id then applyUpdate req pd x else x) })

/-- The adapter's Update: a present date field is parsed first (failing
like the Go code does), an empty SET list degenerates to a re-fetch, and
otherwise the single update-and-return statement runs. -/
def ExpenseRepository.update (db : DB) (id : Int) (req : UpdateExpenseRequest) :
    Except Err (Option Expense × DB) :=
  match req.date with
  | none =>
    if req.description = none ∧ req.amount = none ∧ req.category = none then
      .ok (ExpenseRepository.getByID db id, db)
    else updateRows db id req none
  | some s =>
    match parseDate s with
    | none => .error (.invalidInput ("неверный формат даты: " ++ s))
    | some d => updateRows db id req (some d)

/-- DELETE FROM expenses WHERE id = $1: the adapter itself reports the
not-found error when the statement affected zero rows. -/
def ExpenseRepository.delete (db : DB) (id : Int) : Except Err DB :=
  let remaining := db.rows.filter (fun e => !(e.id == id))
  if db.rows.length - remaining.length = 0 then .error (.notFound id)
  else .ok { db with rows := remaining }

/-- SUM(amount) of one GROUP BY category bucket. -/
def categorySum (db : DB) (c : String) : Rat :=
  ((db.rows.filter (fun e => e.category == c)).map (fun e => e.amount)).sum

/-- The aggregate queries behind GET /api/stats, continued: the overall
sums and the per-category mapping built from the grouped query. -/
def ExpenseRepository.getStats (db : DB) : ExpenseStats :=
  let total := (db.rows.map (fun e => e.amount)).sum
  let count := db.rows.length
  { totalAmount := total
    expenseCount := count
    averageAmount := if count = 0 then 0 else total / (count : Rat)
    byCategory :=
      ((db.rows.map (fun e => e.category)).dedup).map (fun c => (c, categorySum db c)) }

/-- The service's CreateExpense: parse the date string, fail with invalid
input before touching storage, otherwise delegate to the adapter. -/
def ExpenseService.createExpense (db : DB) (now : Nat) (req : CreateExpenseRequest) :
    Except Err Expense × DB :=
  match parseDate req.date with
  | none => (.error (.invalidInput "неверный формат даты, используйте YYYY-MM-DD"), db)
  | some d =>
    let pair := ExpenseRepository.create db now
      { id := 0, description := req.description, amount := req.amount,
        category := req.category, date := d, createdAt := 0 }
    (.ok pair.1, pair.2)

/-- The service's GetExpense, abstracted over the result the adapter
lookup returned: a failure propagates, an empty result becomes the
not-found error carrying the id, a row is returned as is. -/
def ExpenseService.getExpense (id : Int) (lookup : Except Err (Option Expense)) :
    Except Err Expense :=
  match lookup with
  | .error e => .error e
  | .ok none => .error (.notFound id)
  | .ok (some e) => .ok e

/-- The service's GetExpenses: reset a non-positive limit to 50, cap a
limit above 100 at 100, then delegate to the adapter. -/
def ExpenseService.getExpenses (db : DB) (f : ExpenseFilter) : Except Err (List Expense) :=
  let f1 := if f.limit ≤ 0 then { f with limit := 50 } else f
  let f2 := if f1.limit > 100 then { f1 with limit := 100 } else f1
  ExpenseRepository.getAll db f2

/-- The service's DeleteExpense: pure delegation to the adapter. -/
def ExpenseService.deleteExpense (db : DB) (id : Int) : Except Err DB :=
  ExpenseRepository.delete db id

/-- The service's GetStats: pure delegation to the adapter. -/
def ExpenseService.getStats (db : DB) : ExpenseStats :=
  ExpenseRepository.getStats db

/-- A sample stored expense. -/
def ex0 : Expense :=
  { id := 1, description := "кофе", amount := 350, category := "Еда",
    date := { year := 2024, month := 1, day := 15 }, createdAt := 1 }

/-- A one-row table whose next id is 2. -/
def db1 : DB := { rows := [ex0], nextId := 2 }

/-- C1 counterexample input: a create request with an unparseable date. -/
def reqBadDate : CreateExpenseRequest :=
  { description := "Что-то", amount := 100, category := "Разное", date := "not-a-date" }

/-- C3 witness fixtures: a description-only update of the one-row table. -/
def reqDescOnly : UpdateExpenseRequest :=
  { description := some "обед", amount := none, category := none, date := none }

/-- The row of the one-row table after the description-only update. -/
def ex0upd : Expense := { ex0 with description := "обед" }

/-- The one-row table after the description-only update. -/
def db1upd : DB := { rows := [ex0upd], nextId := 2 }

/-- First Food row of the claim's worked statistics example. -/
def exF1 : Expense :=
  { id := 1, description := "Раз", amount := 100, category := "Food",
    date := { year := 2024, month := 1, day := 15 }, createdAt := 0 }

/-- Second Food row of the claim's worked statistics example. -/
def exF2 : Expense :=
  { id := 2, description := "Два", amount := 200, category := "Food",
    date := { year := 2024, month := 1, day := 15 }, createdAt := 0 }

/-- Transport row of the claim's worked statistics example. -/
def exT3 : Expense :=
  { id := 3, description := "Три", amount := 300, category := "Transport",
    date := { year := 2024, month := 1, day := 15 }, createdAt := 0 }

/-- The claim's worked statistics example: 100 and 200 under Food, 300
under Transport. -/
def dbEx : DB := { rows := [exF1, exF2, exT3], nextId := 4 }

/-- C10 witness filter: limit 10, offset minus 3. -/
def fNeg : ExpenseFilter :=
  { category := "", dateFrom := "", dateTo := "", limit := 10, offset := -3 }

/-- The claim's reading of the WHERE clause: conjunction of exactly the
supplied conditions — category equality when a category is given, date at
least the lower bound and at most the upper bound when given. -/
def matchesFilter (cat : String) (lo hi : Option Date) (e : Expense) : Bool :=
  (if cat ≠ "" then e.category == cat else true) &&
  (match lo with | some d => decide (Date.Le d e.date) | none => true) &&
  (match hi with | some d => decide (Date.Le e.date d) | none => true)

/-- C7 witness filter: category Еда, no bounds, no pagination. -/
def f7 : ExpenseFilter :=
  { category := "Еда", dateFrom := "", dateTo := "", limit := 0, offset := 0 }

/-!  Claim theorems. -/

/-- C2: the service's List normalizes the limit before delegating: a
non-positive limit becomes 50, a limit above 100 becomes 100, any other
limit is passed through, and the rest of the filter is untouched; in
particular limit 500 runs with 100 and limit 0 or negative with 50. -/
theorem getExpenses_normalizes_limit (db : DB) (f : ExpenseFilter) :
    ExpenseService.getExpenses db f =
      ExpenseRepository.getAll db
        { f with limit := if f.limit ≤ 0 then 50 else if f.limit > 100 then 100 else f.limit } ∧
    ExpenseService.getExpenses db { f with limit := 500 } =
      ExpenseRepository.getAll db { f with limit := 100 } ∧
    ∀ n : Nat, ExpenseService.getExpenses db { f with limit := -(n : Int) } =
      ExpenseRepository.getAll db { f with limit := 50 } := by
  obtain ⟨c, dfr, dto, lim, off⟩ := f
  refine ⟨?_, ?_, ?_⟩
  · by_cases h1 : lim ≤ 0
    · simp [ExpenseService.getExpenses, h1]
    · by_cases h2 : lim > 100
      · simp [ExpenseService.getExpenses, h1, h2]
      · simp [ExpenseService.getExpenses, h1, h2]
  · norm_num [ExpenseService.getExpenses]
  · intro n
    have h1 : -(n : Int) ≤ 0 := by omega
    simp [ExpenseService.getExpenses, h1]

/-- C4: a create request whose date string does not parse makes the
service fail with InvalidInput and leaves the stored state untouched (the
adapter's create, which always appends a row and advances the sequence,
is never reached). -/
theorem createExpense_invalid_date (db : DB) (now : Nat) (req : CreateExpenseRequest)
    (h : parseDate req.date = none) :
    ExpenseService.createExpense db now req =
      (.error (.invalidInput "неверный формат даты, используйте YYYY-MM-DD"), db) := by
  unfold ExpenseService.createExpense
  rw [h]

/-- C4 witness: the fixture request with date not-a-date is rejected with
InvalidInput and the one-row table is unchanged. -/
theorem createExpense_invalid_date_witness :
    parseDate reqBadDate.date = none ∧
    ExpenseService.createExpense db1 7 reqBadDate =
      (.error (.invalidInput "неверный формат даты, используйте YYYY-MM-DD"), db1) :=
  ⟨by decide, createExpense_invalid_date db1 7 reqBadDate (by decide)⟩

/-- C5: an empty adapter lookup makes the service's GetByID fail with the
NotFound error carrying the id — whose message contains the id — while an
adapter failure propagates verbatim as a distinct error; and the adapter
reports an empty result both for an id no stored row has and for any id
just deleted. -/
theorem getExpense_not_found_spec :
    (∀ id : Int, ExpenseService.getExpense id (.ok none) = .error (.notFound id)) ∧
    (∀ id : Int, ∃ p q, (Err.notFound id).message = p ++ toString id ++ q) ∧
    (∀ (id : Int) (e : Err), ExpenseService.getExpense id (.error e) = .error e) ∧
    (∀ (id : Int) (s : String), Err.storage s ≠ Err.notFound id) ∧
    (∀ (db : DB) (id : Int), (∀ e ∈ db.rows, e.id ≠ id) →
      ExpenseRepository.getByID db id = none) ∧
    (∀ (db db' : DB) (id : Int), ExpenseRepository.delete db id = .ok db' →
      ExpenseRepository.getByID db' id = none) := by
  refine ⟨fun _ => rfl, fun id => ⟨"расход с id=", " не найден", rfl⟩, fun _ _ => rfl,
    fun id s h => Err.noConfusion h, ?_, ?_⟩
  · intro db id h
    unfold ExpenseRepository.getByID
    rw [List.find?_eq_none]
    intro x hx
    simpa using h x hx
  · intro db db' id h
    simp only [ExpenseRepository.delete] at h
    split at h
    · exact absurd h (by simp)
    · cases h
      unfold ExpenseRepository.getByID
      rw [List.find?_eq_none]
      intro x hx
      simpa using (List.mem_filter.mp hx).2

/-- C5 witness: the service turns an empty lookup for id 7 into NotFound
for id 7, and the adapter reports an empty result for id 99 on the
one-row table. -/
theorem getExpense_not_found_witness :
    ExpenseService.getExpense 7 (.ok none) = .error (.notFound 7) ∧
    ExpenseRepository.getByID db1 99 = none :=
  ⟨getExpense_not_found_spec.1 7,
    getExpense_not_found_spec.2.2.2.2.1 db1 99 (by decide)⟩

/-- C8: updating an existing expense with a request carrying no fields is
a no-op: the adapter re-fetches and returns the stored record and the
table is unchanged, with no failure. -/
theorem update_no_fields_noop (db : DB) (id : Int) (e : Expense)
    (h : ExpenseRepository.getByID db id = some e) :
    ExpenseRepository.update db id
      { description := none, amount := none, category := none, date := none } =
      .ok (some e, db) := by
  unfold ExpenseRepository.update
  simp [h]

/-- C8 witness: the empty update on the stored row with id 1 returns that
row and leaves the one-row table as it was. -/
theorem update_no_fields_noop_witness :
    ExpenseRepository.update db1 1
      { description := none, amount := none, category := none, date := none } =
      .ok (some ex0, db1) :=
  update_no_fields_noop db1 1 ex0 (by decide)

/-- Overwriting the SET columns leaves the id untouched, so the rewritten
table still answers a lookup for the same id, now with the updated row. -/
theorem updateRows_ok (db : DB) (id : Int) (req : UpdateExpenseRequest) (pd : Option Date)
    (e : Expense) (h : ExpenseRepository.getByID db id = some e) :
    updateRows db id req pd =
      .ok (some (applyUpdate req pd e),
        { db with rows := db.rows.map (fun x => if x.id == id then applyUpdate req pd x else x) }) ∧
    ExpenseRepository.getByID
        { db with rows := db.rows.map (fun x => if x.id == id then applyUpdate req pd x else x) } id
      = some (applyUpdate req pd e) := by
  constructor
  · unfold updateRows
    rw [h]
  · unfold ExpenseRepository.getByID at h ⊢
    rw [List.find?_map]
    have hcomp : ((fun x : Expense => x.id == id) ∘
        fun x => if x.id == id then applyUpdate req pd x else x) =
        fun x : Expense => x.id == id := by
      funext x
      show ((if x.id == id then applyUpdate req pd x else x).id == id) = (x.id == id)
      by_cases hx : (x.id == id) = true
      · rw [if_pos hx]
        show (x.id == id) = (x.id == id)
        rfl
      · rw [if_neg hx]
    rw [hcomp, h]
    have he : e.id = id := by simpa using List.find?_some h
    simp [he]

/-- C3: the adapter's Update changes only the fields present in the
request; id and created_at never change, and a subsequent GetByID on the
updated table sees every omitted field at its previous value. -/
theorem update_frame (db db' : DB) (id : Int) (req : UpdateExpenseRequest) (e e' : Expense)
    (h : ExpenseRepository.getByID db id = some e)
    (hu : ExpenseRepository.update db id req = .ok (some e', db')) :
    ExpenseRepository.getByID db' id = some e' ∧
    e'.id = e.id ∧ e'.createdAt = e.createdAt ∧
    (req.description = none → e'.description = e.description) ∧
    (req.amount = none → e'.amount = e.amount) ∧
    (req.category = none → e'.category = e.category) ∧
    (req.date = none → e'.date = e.date) := by
  unfold ExpenseRepository.update at hu
  rcases hreq : req.date with _ | s
  · rw [hreq] at hu
    dsimp only at hu
    by_cases hall : req.description = none ∧ req.amount = none ∧ req.category = none
    · rw [if_pos hall, h] at hu
      simp only [Except.ok.injEq, Prod.mk.injEq, Option.some.injEq] at hu
      obtain ⟨he, hdb⟩ := hu
      subst he
      subst hdb
      exact ⟨h, rfl, rfl, fun _ => rfl, fun _ => rfl, fun _ => rfl, fun _ => rfl⟩
    · rw [if_neg hall] at hu
      obtain ⟨h1, h2⟩ := updateRows_ok db id req none e h
      rw [h1] at hu
      simp only [Except.ok.injEq, Prod.mk.injEq, Option.some.injEq] at hu
      obtain ⟨he, hdb⟩ := hu
      subst he
      subst hdb
      refine ⟨h2, rfl, rfl, ?_, ?_, ?_, fun _ => rfl⟩
      · intro hd; simp [applyUpdate, hd]
      · intro hd; simp [applyUpdate, hd]
      · intro hd; simp [applyUpdate, hd]
  · rw [hreq] at hu
    dsimp only at hu
    rcases hp : parseDate s with _ | d
    · rw [hp] at hu
      exact absurd hu (by simp)
    · rw [hp] at hu
      dsimp only at hu
      obtain ⟨h1, h2⟩ := updateRows_ok db id req (some d) e h
      rw [h1] at hu
      simp only [Except.ok.injEq, Prod.mk.injEq, Option.some.injEq] at hu
      obtain ⟨he, hdb⟩ := hu
      subst he
      subst hdb
      refine ⟨h2, rfl, rfl, ?_, ?_, ?_, ?_⟩
      · intro hd; simp [applyUpdate, hd]
      · intro hd; simp [applyUpdate, hd]
      · intro hd; simp [applyUpdate, hd]
      · intro hd; cases hd

/-- C3 witness: after updating only the description of the stored row,
a GetByID sees the new description while amount, category, date, id and
created_at are exactly as before. -/
theorem update_frame_witness :
    ExpenseRepository.getByID db1upd 1 = some ex0upd ∧
    ex0upd.id = ex0.id ∧ ex0upd.createdAt = ex0.createdAt ∧
    ex0upd.amount = ex0.amount ∧ ex0upd.category = ex0.category ∧
    ex0upd.date = ex0.date :=
  have h := update_frame db1 db1upd 1 reqDescOnly ex0 ex0upd (by decide) (by rfl)
  ⟨h.1, h.2.1, h.2.2.1, h.2.2.2.2.1 rfl, h.2.2.2.2.2.1 rfl, h.2.2.2.2.2.2 rfl⟩

/-- A list's length splits into the lengths of the rows kept and the rows
dropped by a filter. -/
theorem length_filter_split (p : Expense → Bool) (l : List Expense) :
    l.length = (l.filter p).length + (l.filter (fun e => !p e)).length := by
  induction l with
  | nil => rfl
  | cons x xs ih =>
    by_cases hx : p x = true <;> simp [List.filter_cons, hx, ih] <;> omega

/-- A duplicate-free list of integers whose members are all equal has at
most one member. -/
theorem nodup_const_length_le_one {l : List Int} {a : Int}
    (hn : l.Nodup) (h : ∀ x ∈ l, x = a) : l.length ≤ 1 := by
  match l with
  | [] => simp
  | [x] => simp
  | x :: y :: t =>
    exfalso
    have hx := h x (by simp)
    have hy := h y (by simp)
    have hne : x ≠ y := by
      have hc := List.nodup_cons.mp hn
      exact fun hxy => hc.1 (hxy ▸ List.mem_cons_self y t)
    exact hne (hx.trans hy.symm)

/-- The DELETE statement affects zero rows exactly when no stored row has
the id. -/
theorem delete_cond_iff (l : List Expense) (id : Int) :
    (l.length - (l.filter (fun e => !(e.id == id))).length = 0) ↔ ∀ e ∈ l, e.id ≠ id := by
  constructor
  · intro h0
    have hle := List.length_filter_le (fun e => !(e.id == id)) l
    have hlen : (l.filter (fun e => !(e.id == id))).length = l.length := by omega
    have hall := List.filter_length_eq_length.mp hlen
    intro e he
    simpa using hall e he
  · intro hall
    have hlen : (l.filter (fun e => !(e.id == id))).length = l.length :=
      List.filter_length_eq_length.mpr (fun e he => by simpa using hall e he)
    omega

/-- C6: Delete succeeds exactly when a stored row with the id exists;
it removes exactly the rows with that id (one row when ids are unique),
after which deleting the same id again fails with NotFound, the error the
adapter reports whenever zero rows were affected; the service delegates
Delete with no pre-check. -/
theorem delete_spec (db : DB) (id : Int) :
    ((∃ db', ExpenseRepository.delete db id = .ok db') ↔ ∃ e ∈ db.rows, e.id = id) ∧
    (∀ db', ExpenseRepository.delete db id = .ok db' →
      db'.rows = db.rows.filter (fun e => !(e.id == id)) ∧
      ExpenseRepository.delete db' id = .error (.notFound id)) ∧
    ((db.rows.map (fun e => e.id)).Nodup →
      ∀ db', ExpenseRepository.delete db id = .ok db' →
        db.rows.length = db'.rows.length + 1) ∧
    ExpenseService.deleteExpense db id = ExpenseRepository.delete db id := by
  have hrows : ∀ db', ExpenseRepository.delete db id = .ok db' →
      db'.rows = db.rows.filter (fun e => !(e.id == id)) := by
    intro db' hdb
    simp only [ExpenseRepository.delete] at hdb
    split at hdb
    · exact absurd hdb (by simp)
    · cases hdb
      rfl
  refine ⟨⟨?_, ?_⟩, ?_, ?_, rfl⟩
  · rintro ⟨db', hdb⟩
    by_contra hno
    push_neg at hno
    have h0 := (delete_cond_iff db.rows id).mpr hno
    simp only [ExpenseRepository.delete] at hdb
    rw [if_pos h0] at hdb
    exact absurd hdb (by simp)
  · rintro ⟨e, he, heid⟩
    refine ⟨{ rows := db.rows.filter (fun x => !(x.id == id)), nextId := db.nextId }, ?_⟩
    simp only [ExpenseRepository.delete]
    rw [if_neg (fun h0 => ((delete_cond_iff db.rows id).mp h0) e he heid)]
  · intro db' hdb
    refine ⟨hrows db' hdb, ?_⟩
    have hnone : ∀ e ∈ db'.rows, e.id ≠ id := by
      intro e he
      rw [hrows db' hdb] at he
      simpa using (List.mem_filter.mp he).2
    simp only [ExpenseRepository.delete]
    rw [if_pos ((delete_cond_iff db'.rows id).mpr hnone)]
  · intro hnd db' hdb
    have hex : ∃ e ∈ db.rows, e.id = id := by
      by_contra hno
      push_neg at hno
      have h0 := (delete_cond_iff db.rows id).mpr hno
      simp only [ExpenseRepository.delete] at hdb
      rw [if_pos h0] at hdb
      exact absurd hdb (by simp)
    obtain ⟨e, he, heid⟩ := hex
    have hsplit := length_filter_split (fun e => !(e.id == id)) db.rows
    have hone : (db.rows.filter (fun e => !(!(e.id == id)))).length = 1 := by
      have hm : e ∈ db.rows.filter (fun x => !(!(x.id == id))) :=
        List.mem_filter.mpr ⟨he, by simpa using heid⟩
      have hpos : 0 < (db.rows.filter (fun x => !(!(x.id == id)))).length :=
        List.length_pos_of_mem hm
      have hsubl : List.Sublist ((db.rows.filter (fun x => !(!(x.id == id)))).map (fun e => e.id))
          (db.rows.map (fun e => e.id)) :=
        List.Sublist.map _ (List.filter_sublist _)
      have hnd' := hnd.sublist hsubl
      have hconst : ∀ x ∈ (db.rows.filter (fun x => !(!(x.id == id)))).map (fun e => e.id),
          x = id := by
        intro x hx
        obtain ⟨y, hy, hyx⟩ := List.mem_map.mp hx
        have h2 := (List.mem_filter.mp hy).2
        simp only [Bool.not_not, beq_iff_eq] at h2
        omega
      have hle1 := nodup_const_length_le_one hnd' hconst
      rw [List.length_map] at hle1
      omega
    rw [hrows db' hdb]
    omega

/-- C6 witness: deleting id 1 from the one-row table succeeds, and the
second delete of id 1, now on the emptied table, fails with NotFound. -/
theorem delete_spec_witness :
    (∃ db', ExpenseRepository.delete db1 1 = .ok db') ∧
    ExpenseRepository.delete ({ rows := [], nextId := 2 } : DB) 1 = .error (.notFound 1) :=
  ⟨(delete_spec db1 1).1.mpr (by decide),
    ((delete_spec db1 1).2.1 { rows := [], nextId := 2 } (by rfl)).2⟩

/-- Looking a key up in an association list that pairs every key with a
computed value returns the computed value exactly for present keys. -/
theorem lookup_map_pairs (g : String → Rat) (c : String) :
    ∀ cats : List String,
      ((cats.map (fun x => (x, g x))).lookup c) = if c ∈ cats then some (g c) else none := by
  intro cats
  induction cats with
  | nil => rfl
  | cons x xs ih =>
    by_cases hx : c = x
    · subst hx
      simp [List.lookup]
    · have hbeq : (c == x) = false := by simpa using hx
      simp [List.lookup, hbeq, ih, hx]

/-- C9: GetStats returns the sum of all amounts, the row count, the
average equal to total divided by count (0 for an empty table), and a
per-category mapping sending each category that occurs to the sum of its
amounts while categories with no recorded expense are absent. -/
theorem getStats_spec (db : DB) :
    (ExpenseRepository.getStats db).totalAmount = (db.rows.map (fun e => e.amount)).sum ∧
    (ExpenseRepository.getStats db).expenseCount = db.rows.length ∧
    (db.rows.length = 0 → (ExpenseRepository.getStats db).averageAmount = 0) ∧
    (db.rows.length ≠ 0 → (ExpenseRepository.getStats db).averageAmount =
      (ExpenseRepository.getStats db).totalAmount / (db.rows.length : Rat)) ∧
    (∀ c : String, c ∈ db.rows.map (fun e => e.category) →
      (ExpenseRepository.getStats db).byCategory.lookup c =
        some (((db.rows.filter (fun e => e.category == c)).map (fun e => e.amount)).sum)) ∧
    (∀ c : String, c ∉ db.rows.map (fun e => e.category) →
      (ExpenseRepository.getStats db).byCategory.lookup c = none) := by
  refine ⟨rfl, rfl, ?_, ?_, ?_, ?_⟩
  · intro h0
    simp only [ExpenseRepository.getStats]
    rw [if_pos h0]
  · intro h0
    simp only [ExpenseRepository.getStats]
    rw [if_neg h0]
  · intro c hc
    simp only [ExpenseRepository.getStats]
    rw [lookup_map_pairs, if_pos (List.mem_dedup.mpr hc)]
    rfl
  · intro c hc
    simp only [ExpenseRepository.getStats]
    rw [lookup_map_pairs, if_neg (fun hmem => hc (List.mem_dedup.mp hmem))]

/-- C9 witness: on the worked example the stats are total 600, count 3,
average 200, and 300 under Food. -/
theorem getStats_spec_witness :
    (ExpenseRepository.getStats dbEx).totalAmount = 600 ∧
    (ExpenseRepository.getStats dbEx).expenseCount = 3 ∧
    (ExpenseRepository.getStats dbEx).averageAmount = 200 ∧
    (ExpenseRepository.getStats dbEx).byCategory.lookup "Food" = some 300 := by
  have h := getStats_spec dbEx
  have hfil : dbEx.rows.filter (fun e => e.category == "Food") = [exF1, exF2] := rfl
  refine ⟨?_, h.2.1, ?_, ?_⟩
  · rw [h.1]
    norm_num [dbEx, exF1, exF2, exT3]
  · rw [h.2.2.2.1 (by decide), h.1]
    norm_num [dbEx, exF1, exF2, exT3]
  · rw [h.2.2.2.2.1 "Food" (by decide), hfil]
    norm_num [exF1, exF2]

/-- A query whose OFFSET clause was omitted because the offset was not
positive coincides with the query for offset zero. -/
theorem getAll_offset_nonpos (db : DB) (c dfr dto : String) (lim off : Int) (h : off ≤ 0) :
    ExpenseRepository.getAll db ⟨c, dfr, dto, lim, off⟩ =
      ExpenseRepository.getAll db ⟨c, dfr, dto, lim, 0⟩ := by
  simp only [ExpenseRepository.getAll]
  cases hlo : parseBound dfr with
  | error e => rfl
  | ok lo =>
    cases hhi : parseBound dto with
    | error e => rfl
    | ok hi =>
      simp only [applyPagination]
      rw [if_neg (by omega : ¬(off > 0)), if_neg (by omega : ¬((0 : Int) > 0))]

/-- C10: a zero or negative offset yields the very query built with no
offset at all — the same as offset zero — both at the adapter and through
the service, which passes the offset along with no normalization. -/
theorem offset_nonpositive_behaves_as_zero (db : DB) (f : ExpenseFilter) (h : f.offset ≤ 0) :
    ExpenseRepository.getAll db f = ExpenseRepository.getAll db { f with offset := 0 } ∧
    ExpenseService.getExpenses db f = ExpenseService.getExpenses db { f with offset := 0 } := by
  obtain ⟨c, dfr, dto, lim, off⟩ := f
  have h' : off ≤ 0 := h
  constructor
  · exact getAll_offset_nonpos db c dfr dto lim off h'
  · by_cases h1 : lim ≤ 0
    · simp only [ExpenseService.getExpenses]
      simp [h1]
      exact getAll_offset_nonpos db c dfr dto 50 off h'
    · by_cases h2 : lim > 100
      · simp only [ExpenseService.getExpenses]
        simp [h1, h2]
        exact getAll_offset_nonpos db c dfr dto 100 off h'
      · simp only [ExpenseService.getExpenses]
        simp [h1, h2]
        exact getAll_offset_nonpos db c dfr dto lim off h'

/-- C10 witness: on the one-row table, the filter with offset minus 3
lists exactly what the same filter with offset 0 lists, at the adapter
and through the service. -/
theorem offset_nonpositive_behaves_as_zero_witness :
    ExpenseRepository.getAll db1 fNeg = ExpenseRepository.getAll db1 { fNeg with offset := 0 } ∧
    ExpenseService.getExpenses db1 fNeg =
      ExpenseService.getExpenses db1 { fNeg with offset := 0 } :=
  offset_nonpositive_behaves_as_zero db1 fNeg (by decide)

/-- The conjunction of the condition list the adapter accumulates is the
conjunction of the supplied filter conditions. -/
theorem filterConds_all (cat : String) (lo hi : Option Date) (e : Expense) :
    (filterConds cat lo hi).all (fun c => c e) = matchesFilter cat lo hi e := by
  unfold filterConds matchesFilter
  by_cases hc : cat = "" <;> rcases lo with _ | d1 <;> rcases hi with _ | d2 <;>
    simp [hc, List.all_append, Bool.and_assoc]

/-- C7: with well-formed bounds, GetAll returns exactly the stored rows
satisfying the conjunction of the supplied conditions, sorted by date
descending then id descending, with OFFSET then LIMIT applied only when
positive; every returned row is a stored matching row, and when nothing
matches the result is the empty list, never an absent value. -/
theorem getAll_spec (db : DB) (f : ExpenseFilter) (lo hi : Option Date)
    (hlo : parseBound f.dateFrom = .ok lo) (hhi : parseBound f.dateTo = .ok hi) :
    ExpenseRepository.getAll db f =
      .ok (applyPagination f.limit f.offset
        (List.insertionSort rowOrd (db.rows.filter (matchesFilter f.category lo hi)))) ∧
    ∀ l, ExpenseRepository.getAll db f = .ok l →
      List.Sorted rowOrd l ∧
      (∀ e ∈ l, e ∈ db.rows ∧ matchesFilter f.category lo hi e = true) ∧
      ((∀ e ∈ db.rows, matchesFilter f.category lo hi e = false) → l = []) := by
  have hfun : (fun e => (filterConds f.category lo hi).all (fun c => c e)) =
      matchesFilter f.category lo hi := funext (filterConds_all f.category lo hi)
  have hmain : ExpenseRepository.getAll db f =
      .ok (applyPagination f.limit f.offset
        (List.insertionSort rowOrd (db.rows.filter (matchesFilter f.category lo hi)))) := by
    unfold ExpenseRepository.getAll
    simp only [hlo, hhi]
    rw [hfun]
  refine ⟨hmain, ?_⟩
  intro l hl
  rw [hmain] at hl
  injection hl with hx
  subst hx
  have hsub : List.Sublist
      (applyPagination f.limit f.offset
        (List.insertionSort rowOrd (db.rows.filter (matchesFilter f.category lo hi))))
      (List.insertionSort rowOrd (db.rows.filter (matchesFilter f.category lo hi))) := by
    simp only [applyPagination]
    split_ifs
    all_goals first
      | exact (List.take_sublist _ _).trans (List.drop_sublist _ _)
      | exact List.take_sublist _ _
      | exact List.drop_sublist _ _
      | exact List.Sublist.refl _
  refine ⟨?_, ?_, ?_⟩
  · exact List.Pairwise.sublist hsub (List.sorted_insertionSort rowOrd _)
  · intro e he
    have h1 := hsub.subset he
    rw [List.mem_insertionSort] at h1
    exact ⟨(List.mem_filter.mp h1).1, (List.mem_filter.mp h1).2⟩
  · intro hall
    have hnil : db.rows.filter (matchesFilter f.category lo hi) = [] := by
      rw [List.filter_eq_nil_iff]
      intro a ha
      rw [hall a ha]
      simp
    simp [applyPagination, hnil]

/-- C7 witness: on the one-row table the filtered listing is exactly the
paginated sort of the rows matching the supplied category condition. -/
theorem getAll_spec_witness :
    ExpenseRepository.getAll db1 f7 =
      .ok (applyPagination f7.limit f7.offset
        (List.insertionSort rowOrd (db1.rows.filter (matchesFilter f7.category none none)))) :=
  (getAll_spec db1 f7 none none (by rfl) (by rfl)).1

end ExpenseTracker
